import Mathlib

/-!
Verification of the PDF A4 slicer (src/streamlit_app.py).

The source contains two slicing engines sharing the same grid arithmetic:
`slice_with_fitz` (PyMuPDF) and `slice_with_pypdf` (pypdf fallback).
Page dimensions, the scale factor and tile rectangles are modelled as exact
rationals; Python's `math.ceil` on those quantities is `Int.ceil`.  The
control flow of each engine (empty-source check, page-index clamping,
capacity check, row-major tile loops with degenerate-tile skipping, blank
pruning, assembly) is embedded as an `Except`-returning function.  The
rendered content of a tile is opaque to the arithmetic, so the tiny
grayscale sample PyMuPDF produces for a tile is abstracted as a function
from the tile's clip rectangle to its list of sampled gray values.
-/

namespace Slicer

/-- Source constant `A4_W = 595` (portrait A4 width in points). -/
def A4_W : ℚ := 595

/-- Source constant `A4_H = 842` (portrait A4 height in points). -/
def A4_H : ℚ := 842

/-- Source constant `HARD_PAGE_CAP = 800` (safety cap on the tile count). -/
def HARD_PAGE_CAP : ℤ := 800

/-- A rectangle in the source page's top-left-origin coordinates, as built by
`fitz.Rect(left, top, right, bottom)` and by the pypdf loop variables. -/
structure Rect where
  left : ℚ
  top : ℚ
  right : ℚ
  bottom : ℚ
deriving DecidableEq

/-- One page of the source document: its width and height in points. -/
structure SrcPage where
  width : ℚ
  height : ℚ
deriving DecidableEq

/-- The failures the slicing engines can surface.  `emptySource` is the
"PDF has no pages." ValueError, `capacityExceeded total cap` the
"This scale would create {total} pages (> {cap})." ValueError, and
`allTilesBlank` the failure of saving a document from which every page was
pruned.  `invalidPageIndex` has no raising site in the source; it exists so
that "never raised" is expressible. -/
inductive SliceError where
  | emptySource : SliceError
  | capacityExceeded : ℤ → ℤ → SliceError
  | allTilesBlank : SliceError
  | invalidPageIndex : SliceError
deriving DecidableEq

/-- Python `max(0, min(page_index, page_count - 1))` from lines 23 and 85. -/
def clampIndex (pageCount : ℕ) (i : ℤ) : ℤ :=
  max 0 (min i ((pageCount : ℤ) - 1))

/-- The source page selected by the clamped index (`doc[page_index]`,
`reader.pages[page_index]`). -/
def selPage (pages : List SrcPage) (i : ℤ) : SrcPage :=
  pages.getD (clampIndex pages.length i).toNat ⟨0, 0⟩

/-- The blank test of line 64: `all(b == 255 for b in tiny.samples)`. -/
def isBlank (samples : List ℕ) : Bool :=
  samples.all (fun b => b == 255)

namespace Fitz

/-- Line 27: `tile_w = A4_W / scale`. -/
def tile_w (scale : ℚ) : ℚ := A4_W / scale

/-- Line 28: `tile_h = A4_H / scale`. -/
def tile_h (scale : ℚ) : ℚ := A4_H / scale

/-- Line 29: `cols = math.ceil(src_w / tile_w)`. -/
def cols (src_w scale : ℚ) : ℤ := ⌈src_w / tile_w scale⌉

/-- Line 30: `rows = math.ceil(src_h / tile_h)`. -/
def rows (src_h scale : ℚ) : ℤ := ⌈src_h / tile_h scale⌉

/-- The clip rectangle of tile `(r, c)` as the loop body computes it, before
the degenerate (`< 1` point) checks prune anything: `top = r*tile_h`,
`bottom = min(top+tile_h, src_h)`, `left = c*tile_w`,
`right = min(left+tile_w, src_w)`. -/
def tileRect (src_w src_h scale : ℚ) (r c : ℕ) : Rect :=
  ⟨(c : ℚ) * tile_w scale,
   (r : ℚ) * tile_h scale,
   min ((c : ℚ) * tile_w scale + tile_w scale) src_w,
   min ((r : ℚ) * tile_h scale + tile_h scale) src_h⟩

/-- The nested loops of lines 44-55: rows ascending, then columns ascending,
skipping rows shorter than 1 point and tiles narrower than 1 point.  Each
emitted element keeps its grid coordinates `(r, c)` beside the clip
rectangle handed to `show_pdf_page`. -/
def tiles (src_w src_h scale : ℚ) : List ((ℕ × ℕ) × Rect) :=
  (List.range (rows src_h scale).toNat).flatMap (fun (r : ℕ) =>
    let top := (r : ℚ) * tile_h scale
    let bottom := min (top + tile_h scale) src_h
    if bottom - top < 1 then []
    else (List.range (cols src_w scale).toNat).filterMap (fun (c : ℕ) =>
      let left := (c : ℚ) * tile_w scale
      let right := min (left + tile_w scale) src_w
      if right - left < 1 then none
      else some ((r, c), ⟨left, top, right, bottom⟩)))

/-- Lines 57-65: a fresh A4 page is created per tile and deleted again when
its low-resolution grayscale sample is uniformly 255, so the surviving
output pages are the tiles whose sample is not all-white, in loop order. -/
def survivors (src_w src_h scale : ℚ) (render : Rect → List ℕ) :
    List ((ℕ × ℕ) × Rect) :=
  (tiles src_w src_h scale).filter (fun t => !(isBlank (render t.2)))

end Fitz

/-- `slice_with_fitz` (lines 17-78): empty-source check, index clamping,
grid arithmetic, capacity check, the tile loop with blank pruning, and the
final save — which PyMuPDF refuses for a document with zero pages, the
failure the spec names `AllTilesBlank`.  Returns the surviving clip
rectangles in output order together with `rows`, `cols` and the output page
count. -/
def slice_with_fitz (pages : List SrcPage) (scale : ℚ) (page_index : ℤ)
    (render : Rect → List ℕ) :
    Except SliceError (List Rect × ℤ × ℤ × ℕ) :=
  if pages.length = 0 then .error .emptySource else
  let sp := selPage pages page_index
  let c := Fitz.cols sp.width scale
  let r := Fitz.rows sp.height scale
  let total := r * c
  if HARD_PAGE_CAP < total then
    .error (.capacityExceeded total HARD_PAGE_CAP)
  else
    let surv := Fitz.survivors sp.width sp.height scale render
    if surv.length = 0 then .error .allTilesBlank
    else .ok (surv.map (fun t => t.2), r, c, surv.length)

/-- A pypdf `Transformation` compressed to its ctm `(a, b, c, d, e, f)`;
it sends a point `(x, y)` to `(a*x + c*y + e, b*x + d*y + f)`. -/
structure PdfMatrix where
  a : ℚ
  b : ℚ
  c : ℚ
  d : ℚ
  e : ℚ
  f : ℚ
deriving DecidableEq

namespace PdfMatrix

/-- The ctm of `Transformation()`. -/
def identity : PdfMatrix := ⟨1, 0, 0, 1, 0, 0⟩

/-- `Transformation.scale(s)` with a uniform factor: the current ctm is
multiplied by the diagonal scaling matrix, which scales all six entries. -/
def scaleBy (m : PdfMatrix) (s : ℚ) : PdfMatrix :=
  ⟨m.a * s, m.b * s, m.c * s, m.d * s, m.e * s, m.f * s⟩

/-- `Transformation.translate(tx, ty)`: adds the offsets to the ctm's
translation entries. -/
def translateBy (m : PdfMatrix) (tx ty : ℚ) : PdfMatrix :=
  ⟨m.a, m.b, m.c, m.d, m.e + tx, m.f + ty⟩

/-- Apply the ctm to a point, as the PDF imaging model does when
`merge_transformed_page` replays content under it. -/
def apply (m : PdfMatrix) (p : ℚ × ℚ) : ℚ × ℚ :=
  (m.a * p.1 + m.c * p.2 + m.e, m.b * p.1 + m.d * p.2 + m.f)

end PdfMatrix

namespace Pypdf

/-- Line 91: `tile_w = A4_W / scale`. -/
def tile_w (scale : ℚ) : ℚ := A4_W / scale

/-- Line 92: `tile_h = A4_H / scale`. -/
def tile_h (scale : ℚ) : ℚ := A4_H / scale

/-- Line 93: `cols = math.ceil(src_w / tile_w)`. -/
def cols (src_w scale : ℚ) : ℤ := ⌈src_w / tile_w scale⌉

/-- Line 94: `rows = math.ceil(src_h / tile_h)`. -/
def rows (src_h scale : ℚ) : ℤ := ⌈src_h / tile_h scale⌉

/-- The clip rectangle of tile `(r, c)` in top-left-origin coordinates as
the pypdf loop computes it (`top_tl`, `bottom_tl`, `left`, `right`), before
the degenerate checks prune anything. -/
def tileRect (src_w src_h scale : ℚ) (r c : ℕ) : Rect :=
  ⟨(c : ℚ) * tile_w scale,
   (r : ℚ) * tile_h scale,
   min ((c : ℚ) * tile_w scale + tile_w scale) src_w,
   min ((r : ℚ) * tile_h scale + tile_h scale) src_h⟩

/-- Lines 109 and 118-119: `y_bottom_bl = src_h - bottom_tl`, then
`Transformation().scale(scale).translate(tx=-left*scale, ty=-y_bottom_bl*scale)`. -/
def tileTransform (src_h scale : ℚ) (t : Rect) : PdfMatrix :=
  let y_bottom_bl := src_h - t.bottom
  (PdfMatrix.identity.scaleBy scale).translateBy (-t.left * scale)
    (-y_bottom_bl * scale)

/-- The nested loops of lines 104-120: rows ascending then columns
ascending, skipping degenerate rows and tiles, each surviving tile adding a
blank A4 page merged with the transformed source page.  No blank detection
exists in this engine.  Each element keeps `(r, c)`, the tile's clip
rectangle and the transform applied to the merged page. -/
def outPages (src_w src_h scale : ℚ) : List ((ℕ × ℕ) × Rect × PdfMatrix) :=
  (List.range (rows src_h scale).toNat).flatMap (fun (r : ℕ) =>
    let top_tl := (r : ℚ) * tile_h scale
    let bottom_tl := min (top_tl + tile_h scale) src_h
    if bottom_tl - top_tl < 1 then []
    else (List.range (cols src_w scale).toNat).filterMap (fun (c : ℕ) =>
      let left := (c : ℚ) * tile_w scale
      let right := min (left + tile_w scale) src_w
      if right - left < 1 then none
      else
        let t : Rect := ⟨left, top_tl, right, bottom_tl⟩
        some ((r, c), t, tileTransform src_h scale t)))

end Pypdf

/-- `slice_with_pypdf` (lines 80-128): empty-source check, index clamping,
grid arithmetic, capacity check, the tile loop (no blank pruning), and
`writer.write`, which succeeds for any page list.  Returns the output pages
(clip rectangle and merge transform) in order together with `rows`, `cols`
and `len(writer.pages)`. -/
def slice_with_pypdf (pages : List SrcPage) (scale : ℚ) (page_index : ℤ) :
    Except SliceError (List (Rect × PdfMatrix) × ℤ × ℤ × ℕ) :=
  if pages.length = 0 then .error .emptySource else
  let sp := selPage pages page_index
  let c := Pypdf.cols sp.width scale
  let r := Pypdf.rows sp.height scale
  let total := r * c
  if HARD_PAGE_CAP < total then
    .error (.capacityExceeded total HARD_PAGE_CAP)
  else
    let out := Pypdf.outPages sp.width sp.height scale
    .ok (out.map (fun t => t.2), r, c, out.length)

/-- Membership of a point in a closed rectangle. -/
def Rect.memC (t : Rect) (x y : ℚ) : Prop :=
  t.left ≤ x ∧ x ≤ t.right ∧ t.top ≤ y ∧ y ≤ t.bottom

/-- Membership of a point in the open interior of a rectangle. -/
def Rect.memO (t : Rect) (x y : ℚ) : Prop :=
  t.left < x ∧ x < t.right ∧ t.top < y ∧ y < t.bottom

/-- Row-major precedence on grid coordinates: earlier row, or same row and
earlier column. -/
def rowMajorLt (p q : ℕ × ℕ) : Prop :=
  p.1 < q.1 ∨ (p.1 = q.1 ∧ p.2 < q.2)


/-! Helper lemmas shared by several developments below. -/

theorem int_toNat_one : Int.toNat 1 = 1 := rfl

theorem int_toNat_two : Int.toNat 2 = 2 := rfl

/-- Forgetting the merge transform, the pypdf loop enumerates exactly the
grid-indexed clip rectangles the fitz loop enumerates. -/
theorem outPages_proj (src_w src_h scale : ℚ) :
    (Pypdf.outPages src_w src_h scale).map (fun t => (t.1, t.2.1)) =
      Fitz.tiles src_w src_h scale := by
  unfold Pypdf.outPages Fitz.tiles Pypdf.rows Fitz.rows Pypdf.cols Fitz.cols
    Pypdf.tile_w Fitz.tile_w Pypdf.tile_h Fitz.tile_h
  rw [List.map_flatMap]
  apply congrArg
  funext r
  dsimp only
  split
  · rfl
  · rw [List.map_filterMap]
    congr 1
    funext c
    dsimp only
    split
    · rfl
    · rfl

/-- Concrete evaluation: a 595x842 source at scale 1 yields the single tile
covering the whole page. -/
theorem tiles_unit : Fitz.tiles 595 842 1 = [((0, 0), ⟨0, 0, 595, 842⟩)] := by
  norm_num [Fitz.tiles, Fitz.rows, Fitz.cols, Fitz.tile_h, Fitz.tile_w, A4_H, A4_W,
    List.range_succ, List.filterMap_cons, List.filterMap_nil, int_toNat_one]

/-! Claim theorems. -/

/-- C1: for every source page of width `src_w` and height `src_h` and every
scale in [0.40, 1.00], both engines compute the grid as
`cols = ceil(src_w / (target_width/scale))` and
`rows = ceil(src_h / (target_height/scale))` with `target_width = 595` and
`target_height = 842`. -/
theorem claim1_grid_formula (src_w src_h scale : ℚ)
    (hlo : 2/5 ≤ scale) (hhi : scale ≤ 1) :
    Fitz.cols src_w scale = ⌈src_w / (595 / scale)⌉ ∧
    Fitz.rows src_h scale = ⌈src_h / (842 / scale)⌉ ∧
    Pypdf.cols src_w scale = ⌈src_w / (595 / scale)⌉ ∧
    Pypdf.rows src_h scale = ⌈src_h / (842 / scale)⌉ ∧
    A4_W = 595 ∧ A4_H = 842 :=
  ⟨rfl, rfl, rfl, rfl, rfl, rfl⟩

/-- Witness for C1 at the spec's concrete scenario: source 1190x1684 at
scale 0.80. -/
theorem claim1_grid_formula_witness :
    Fitz.cols 1190 (4/5) = ⌈(1190 : ℚ) / (595 / (4/5))⌉ ∧
    Fitz.rows 1684 (4/5) = ⌈(1684 : ℚ) / (842 / (4/5))⌉ ∧
    Pypdf.cols 1190 (4/5) = ⌈(1190 : ℚ) / (595 / (4/5))⌉ ∧
    Pypdf.rows 1684 (4/5) = ⌈(1684 : ℚ) / (842 / (4/5))⌉ ∧
    A4_W = 595 ∧ A4_H = 842 :=
  claim1_grid_formula 1190 1684 (4/5) (by norm_num) (by norm_num)

/-- C2: the fallback engine's transform converts the vertical coordinate to
`y_bottom = src_h - bottom`, is built as scale followed by translation by
the already-scaled offsets, maps any point `(x, y)` to
`(scale*(x - left), scale*(y - y_bottom))` — in particular the tile's
bottom-left corner to the output origin — and at scale 1.00 on a source of
exactly 595x842 the single tile's transform is the identity. -/
theorem claim2_transform (src_h scale x y : ℚ) (t : Rect) :
    (Pypdf.tileTransform src_h scale t).apply (x, y) =
      (scale * (x - t.left), scale * (y - (src_h - t.bottom))) ∧
    (Pypdf.tileTransform src_h scale t).apply (t.left, src_h - t.bottom) = (0, 0) ∧
    Pypdf.tileTransform src_h scale t =
      (PdfMatrix.identity.scaleBy scale).translateBy (-(t.left * scale))
        (-((src_h - t.bottom) * scale)) ∧
    Pypdf.outPages 595 842 1 = [((0, 0), ⟨0, 0, 595, 842⟩, PdfMatrix.identity)] := by
  refine ⟨?_, ?_, ?_, ?_⟩
  · simp only [Pypdf.tileTransform, PdfMatrix.identity, PdfMatrix.scaleBy,
      PdfMatrix.translateBy, PdfMatrix.apply, Prod.mk.injEq]
    constructor <;> ring
  · simp only [Pypdf.tileTransform, PdfMatrix.identity, PdfMatrix.scaleBy,
      PdfMatrix.translateBy, PdfMatrix.apply, Prod.mk.injEq]
    constructor <;> ring
  · simp only [Pypdf.tileTransform]
    rw [neg_mul, neg_mul]
  · norm_num [Pypdf.outPages, Pypdf.rows, Pypdf.cols, Pypdf.tile_h, Pypdf.tile_w,
      Pypdf.tileTransform, PdfMatrix.identity, PdfMatrix.scaleBy, PdfMatrix.translateBy,
      A4_H, A4_W, List.range_succ, List.filterMap_cons, List.filterMap_nil, int_toNat_one]

/-- C10: on equal inputs the two engines compute identical `tile_w`,
`tile_h`, `rows` and `cols`, the same per-index clip rectangles, and
enumerate the same list (hence set) of non-degenerate tile clip
rectangles. -/
theorem claim10_engines_agree (src_w src_h scale : ℚ) :
    Pypdf.tile_w scale = Fitz.tile_w scale ∧
    Pypdf.tile_h scale = Fitz.tile_h scale ∧
    Pypdf.cols src_w scale = Fitz.cols src_w scale ∧
    Pypdf.rows src_h scale = Fitz.rows src_h scale ∧
    (∀ r c : ℕ, Pypdf.tileRect src_w src_h scale r c =
      Fitz.tileRect src_w src_h scale r c) ∧
    (Pypdf.outPages src_w src_h scale).map (fun t => t.2.1) =
      (Fitz.tiles src_w src_h scale).map (fun t => t.2) := by
  refine ⟨rfl, rfl, rfl, rfl, fun r c => rfl, ?_⟩
  rw [← outPages_proj, List.map_map]
  rfl

/-- C9: neither slicing function ever fails with an invalid-page-index
error: any integer page index, below 0 or at or beyond the page count
included, is silently clamped into `[0, page_count-1]` and the function
slices exactly as if it had been given the clamped index. -/
theorem claim9_clamped_index (pages : List SrcPage) (scale : ℚ) (i : ℤ)
    (render : Rect → List ℕ) :
    slice_with_fitz pages scale i render ≠ .error .invalidPageIndex ∧
    slice_with_pypdf pages scale i ≠ .error .invalidPageIndex ∧
    slice_with_fitz pages scale i render =
      slice_with_fitz pages scale (clampIndex pages.length i) render ∧
    slice_with_pypdf pages scale i =
      slice_with_pypdf pages scale (clampIndex pages.length i) ∧
    0 ≤ clampIndex pages.length i ∧
    clampIndex pages.length i ≤ max 0 ((pages.length : ℤ) - 1) := by
  have hcl : clampIndex pages.length (clampIndex pages.length i) =
      clampIndex pages.length i := by
    unfold clampIndex; omega
  refine ⟨?_, ?_, ?_, ?_, ?_, ?_⟩
  · unfold slice_with_fitz
    split
    · simp
    · dsimp only
      split
      · simp
      · split
        · simp
        · simp
  · unfold slice_with_pypdf
    split
    · simp
    · dsimp only
      split
      · simp
      · simp
  · simp only [slice_with_fitz, selPage, hcl]
  · simp only [slice_with_pypdf, selPage, hcl]
  · unfold clampIndex; omega
  · unfold clampIndex; omega

/-- Witness for C9 at a concrete out-of-range index: a one-page document
asked for page 7. -/
theorem claim9_clamped_index_witness :
    slice_with_fitz [⟨595, 842⟩] 1 7 (fun x => [0]) ≠ .error .invalidPageIndex ∧
    slice_with_pypdf [⟨595, 842⟩] 1 7 ≠ .error .invalidPageIndex ∧
    slice_with_fitz [⟨595, 842⟩] 1 7 (fun x => [0]) =
      slice_with_fitz [⟨595, 842⟩] 1 (clampIndex 1 7) (fun x => [0]) ∧
    slice_with_pypdf [⟨595, 842⟩] 1 7 =
      slice_with_pypdf [⟨595, 842⟩] 1 (clampIndex 1 7) ∧
    0 ≤ clampIndex 1 7 ∧
    clampIndex 1 7 ≤ max 0 (((1 : ℕ) : ℤ) - 1) := by
  have h := claim9_clamped_index [⟨595, 842⟩] 1 7 (fun x => [0])
  simpa using h

/-- C3: whenever the projected page total `rows*cols` of the selected source
page exceeds the cap of 800, both engines fail with the capacity error
carrying the projected total and the cap, and produce no output pages. -/
theorem claim3_capacity (pages : List SrcPage) (scale : ℚ) (i : ℤ)
    (render : Rect → List ℕ) (hne : pages ≠ [])
    (hcap : HARD_PAGE_CAP <
      Fitz.rows (selPage pages i).height scale * Fitz.cols (selPage pages i).width scale) :
    slice_with_fitz pages scale i render =
      .error (.capacityExceeded
        (Fitz.rows (selPage pages i).height scale * Fitz.cols (selPage pages i).width scale)
        HARD_PAGE_CAP) ∧
    slice_with_pypdf pages scale i =
      .error (.capacityExceeded
        (Pypdf.rows (selPage pages i).height scale * Pypdf.cols (selPage pages i).width scale)
        HARD_PAGE_CAP) := by
  have h0 : ¬ pages.length = 0 := fun h => hne (List.length_eq_zero.mp h)
  constructor
  · unfold slice_with_fitz
    rw [if_neg h0]
    dsimp only
    rw [if_pos hcap]
  · have hcap2 : HARD_PAGE_CAP <
        Pypdf.rows (selPage pages i).height scale * Pypdf.cols (selPage pages i).width scale :=
      hcap
    unfold slice_with_pypdf
    rw [if_neg h0]
    dsimp only
    rw [if_pos hcap2]

/-- Witness for C3: a 20000x20000 source at scale 1 projects a 34x24 grid,
816 pages, over the cap of 800. -/
theorem claim3_capacity_witness :
    slice_with_fitz [⟨20000, 20000⟩] 1 0 (fun x => [0]) =
      .error (.capacityExceeded
        (Fitz.rows (selPage [⟨20000, 20000⟩] 0).height 1 *
          Fitz.cols (selPage [⟨20000, 20000⟩] 0).width 1) HARD_PAGE_CAP) ∧
    slice_with_pypdf [⟨20000, 20000⟩] 1 0 =
      .error (.capacityExceeded
        (Pypdf.rows (selPage [⟨20000, 20000⟩] 0).height 1 *
          Pypdf.cols (selPage [⟨20000, 20000⟩] 0).width 1) HARD_PAGE_CAP) :=
  claim3_capacity [⟨20000, 20000⟩] 1 0 (fun x => [0]) (by simp)
    (by
      show (800 : ℤ) < Fitz.rows 20000 1 * Fitz.cols 20000 1
      have h1 : Fitz.rows 20000 1 = 24 := by
        unfold Fitz.rows Fitz.tile_h A4_H
        norm_num [Int.ceil_eq_iff]
      have h2 : Fitz.cols 20000 1 = 34 := by
        unfold Fitz.cols Fitz.tile_w A4_W
        norm_num [Int.ceil_eq_iff]
      rw [h1, h2]
      norm_num)

/-- C4: in the engine that performs blank detection, a job whose candidate
pages are all judged blank (each tile's low-resolution sample is uniformly
255) ends in the all-tiles-blank failure rather than a serialized
document: with the capacity check passed and at least one candidate tile,
pruning empties the document and the final save step fails. -/
theorem claim4_all_blank (pages : List SrcPage) (scale : ℚ) (i : ℤ)
    (render : Rect → List ℕ) (hne : pages ≠ [])
    (hcap : ¬ HARD_PAGE_CAP <
      Fitz.rows (selPage pages i).height scale * Fitz.cols (selPage pages i).width scale)
    (hblank : ∀ t ∈ Fitz.tiles (selPage pages i).width (selPage pages i).height scale,
      isBlank (render t.2) = true) :
    slice_with_fitz pages scale i render = .error .allTilesBlank := by
  have h0 : ¬ pages.length = 0 := fun h => hne (List.length_eq_zero.mp h)
  have hsurv : Fitz.survivors (selPage pages i).width (selPage pages i).height scale render
      = [] := by
    unfold Fitz.survivors
    rw [List.filter_eq_nil_iff]
    intro t ht
    simp [hblank t ht]
  unfold slice_with_fitz
  rw [if_neg h0]
  dsimp only
  rw [if_neg hcap, hsurv]
  rfl

/-- Witness for C4: a one-tile job whose single sample list is [255]. -/
theorem claim4_all_blank_witness :
    slice_with_fitz [⟨595, 842⟩] 1 0 (fun x => [255]) = .error .allTilesBlank :=
  claim4_all_blank [⟨595, 842⟩] 1 0 (fun x => [255]) (by simp)
    (by norm_num [selPage, clampIndex, Fitz.rows, Fitz.cols, Fitz.tile_w, Fitz.tile_h,
      A4_W, A4_H, HARD_PAGE_CAP])
    (fun t ht => rfl)


/-- C5: the blank test holds iff every sampled pixel is exactly 255; a
blank-judged page is removed from the output sequence, a page with any
sampled pixel other than 255 (the near-white values 250-254 included) is
kept, and the surviving pages keep their relative order. -/
theorem claim5_blank_threshold (src_w src_h scale : ℚ) (render : Rect → List ℕ) :
    (∀ samples : List ℕ, isBlank samples = true ↔ ∀ b ∈ samples, b = 255) ∧
    (∀ t, t ∈ Fitz.survivors src_w src_h scale render ↔
      t ∈ Fitz.tiles src_w src_h scale ∧ ¬ ∀ b ∈ render t.2, b = 255) ∧
    (∀ t, t ∈ Fitz.tiles src_w src_h scale → (∃ b ∈ render t.2, b < 255) →
      t ∈ Fitz.survivors src_w src_h scale render) ∧
    (Fitz.survivors src_w src_h scale render).Sublist (Fitz.tiles src_w src_h scale) := by
  have hchar : ∀ samples : List ℕ, isBlank samples = true ↔ ∀ b ∈ samples, b = 255 := by
    intro samples
    simp [isBlank, List.all_eq_true]
  refine ⟨hchar, ?_, ?_, List.filter_sublist _⟩
  · intro t
    rw [Fitz.survivors, List.mem_filter]
    constructor
    · rintro ⟨ht, hb⟩
      refine ⟨ht, fun hall => ?_⟩
      rw [(hchar (render t.2)).mpr hall] at hb
      simp at hb
    · rintro ⟨ht, hnall⟩
      refine ⟨ht, ?_⟩
      cases hb : isBlank (render t.2)
      · rfl
      · exact absurd ((hchar (render t.2)).mp hb) hnall
  · intro t ht hex
    rw [Fitz.survivors, List.mem_filter]
    refine ⟨ht, ?_⟩
    rcases hex with ⟨b, hb, hblt⟩
    cases hbk : isBlank (render t.2)
    · rfl
    · have := ((hchar (render t.2)).mp hbk) b hb
      omega

/-- Witness for C5: a tile whose sample contains the near-white value 250
is kept. -/
theorem claim5_blank_threshold_witness :
    ((0, 0), (⟨0, 0, 595, 842⟩ : Rect)) ∈
      Fitz.survivors 595 842 1 (fun x => [250]) :=
  (claim5_blank_threshold 595 842 1 (fun x => [250])).2.2.1 _
    (by rw [tiles_unit]; exact List.mem_singleton.mpr rfl)
    ⟨250, by simp, by norm_num⟩

/-- The blank-pruning pass as the spec describes it: a `remove_blanks` flag
decides whether blank pages are pruned from the candidate sequence. -/
def flagPruned (remove_blanks : Bool) (cand : List ((ℕ × ℕ) × Rect))
    (render : Rect → List ℕ) : List ((ℕ × ℕ) × Rect) :=
  if remove_blanks then cand.filter (fun t => !(isBlank (render t.2))) else cand

/-- A concrete rendering in which the top tile row samples pure white and
every other tile samples a dark pixel. -/
def rdemo : Rect → List ℕ :=
  fun t => if t.top = 0 then [255] else [7]

/-- C6 as stated is false: no value of a `remove_blanks` flag makes both
engines prune blank pages exactly when the flag is set.  On a 595x1684
source at scale 1 whose top tile renders blank, the fitz engine prunes it
(so the flag would have to be set) while the pypdf engine keeps it
(so the flag would have to be clear). -/
theorem claim6_counterexample :
    ¬ ∃ remove_blanks : Bool,
      Fitz.survivors 595 1684 1 rdemo =
        flagPruned remove_blanks (Fitz.tiles 595 1684 1) rdemo ∧
      (Pypdf.outPages 595 1684 1).map (fun t => (t.1, t.2.1)) =
        flagPruned remove_blanks (Fitz.tiles 595 1684 1) rdemo := by
  have htiles : Fitz.tiles 595 1684 1 =
      [((0, 0), ⟨0, 0, 595, 842⟩), ((1, 0), ⟨0, 842, 595, 1684⟩)] := by
    norm_num [Fitz.tiles, Fitz.rows, Fitz.cols, Fitz.tile_h, Fitz.tile_w, A4_H, A4_W,
      List.range_succ, List.filterMap_cons, List.filterMap_nil, int_toNat_one, int_toNat_two]
  have hfilter : (Fitz.tiles 595 1684 1).filter (fun t => !(isBlank (rdemo t.2))) =
      [((1, 0), ⟨0, 842, 595, 1684⟩)] := by
    rw [htiles]
    norm_num [List.filter, rdemo, isBlank]
    rfl
  rintro ⟨b, h1, h2⟩
  cases b
  · rw [Fitz.survivors, hfilter] at h1
    simp only [flagPruned, if_neg] at h1
    rw [htiles] at h1
    simp at h1
  · rw [outPages_proj] at h2
    simp only [flagPruned, if_pos] at h2
    rw [hfilter, htiles] at h2
    simp at h2

/-- C6 amended: blank pruning is not flag-controlled — the fitz engine
always behaves as the spec's pass with the flag set (it prunes every
blank-sampled tile unconditionally), while the pypdf engine always behaves
as the pass with the flag clear (it keeps every non-degenerate tile,
having no blank detection at all). -/
theorem claim6_amended (src_w src_h scale : ℚ) (render : Rect → List ℕ) :
    Fitz.survivors src_w src_h scale render =
      flagPruned true (Fitz.tiles src_w src_h scale) render ∧
    (Pypdf.outPages src_w src_h scale).map (fun t => (t.1, t.2.1)) =
      flagPruned false (Fitz.tiles src_w src_h scale) render := by
  exact ⟨rfl, outPages_proj src_w src_h scale⟩

/-- Lists produced row by row are row-major sorted on their grid indices
when every element of a row block carries that row's index and each block
is itself sorted. -/
theorem pairwise_rowMajor_flatMap {α : Type} (rowFn : ℕ → List ((ℕ × ℕ) × α)) (n : ℕ)
    (h1 : ∀ r, ∀ t ∈ rowFn r, t.1.1 = r)
    (h2 : ∀ r, List.Pairwise rowMajorLt ((rowFn r).map (fun t => t.1))) :
    List.Pairwise rowMajorLt (((List.range n).flatMap rowFn).map (fun t => t.1)) := by
  rw [List.map_flatMap, List.pairwise_flatMap]
  refine ⟨fun r _ => h2 r, ?_⟩
  refine (List.pairwise_lt_range n).imp ?_
  intro r1 r2 h12 x hx y hy
  rcases List.mem_map.mp hx with ⟨t, ht, rfl⟩
  rcases List.mem_map.mp hy with ⟨u, hu, rfl⟩
  exact Or.inl (by rw [h1 r1 t ht, h1 r2 u hu]; exact h12)

/-- The fitz tile loop written without intermediate bindings, each clip
rectangle expressed through `Fitz.tileRect`. -/
theorem tiles_eq (src_w src_h scale : ℚ) :
    Fitz.tiles src_w src_h scale =
      (List.range (Fitz.rows src_h scale).toNat).flatMap (fun (r : ℕ) =>
        if min ((r : ℚ) * Fitz.tile_h scale + Fitz.tile_h scale) src_h -
            (r : ℚ) * Fitz.tile_h scale < 1 then []
        else (List.range (Fitz.cols src_w scale).toNat).filterMap (fun (c : ℕ) =>
          if min ((c : ℚ) * Fitz.tile_w scale + Fitz.tile_w scale) src_w -
              (c : ℚ) * Fitz.tile_w scale < 1 then none
          else some ((r, c), Fitz.tileRect src_w src_h scale r c))) := rfl

/-- The fitz tile enumeration is sorted in strict row-major order on its
grid indices. -/
theorem tiles_index_sorted (src_w src_h scale : ℚ) :
    List.Pairwise rowMajorLt ((Fitz.tiles src_w src_h scale).map (fun t => t.1)) := by
  rw [tiles_eq]
  refine pairwise_rowMajor_flatMap _ _ ?_ ?_
  · intro r t ht
    split at ht
    · simp at ht
    · rcases List.mem_filterMap.mp ht with ⟨c, _, hc⟩
      split at hc
      · simp at hc
      · cases Option.some.inj hc
        rfl
  · intro r
    split
    · simp
    · rw [List.map_filterMap, List.pairwise_filterMap]
      refine (List.pairwise_lt_range _).imp ?_
      intro c1 c2 h12 b hb b2 hb2
      split at hb
      · simp at hb
      · split at hb2
        · simp at hb2
        · have e1 : ((r, c1) : ℕ × ℕ) = b := by simpa using hb
          have e2 : ((r, c2) : ℕ × ℕ) = b2 := by simpa using hb2
          rw [← e1, ← e2]
          exact Or.inr ⟨rfl, h12⟩

/-- C8: in both engines the output pages follow the strict row-major scan
order of their tiles (row ascending, then column ascending); blank pruning
keeps the surviving pages a sublist of that enumeration, so the order is
preserved through pruning and into the serialized output. -/
theorem claim8_row_major_order (src_w src_h scale : ℚ) (render : Rect → List ℕ) :
    List.Pairwise rowMajorLt ((Fitz.tiles src_w src_h scale).map (fun t => t.1)) ∧
    (Fitz.survivors src_w src_h scale render).Sublist (Fitz.tiles src_w src_h scale) ∧
    List.Pairwise rowMajorLt ((Fitz.survivors src_w src_h scale render).map (fun t => t.1)) ∧
    List.Pairwise rowMajorLt ((Pypdf.outPages src_w src_h scale).map (fun t => t.1)) := by
  refine ⟨tiles_index_sorted src_w src_h scale, List.filter_sublist _, ?_, ?_⟩
  · have hs : ((Fitz.survivors src_w src_h scale render).map (fun t => t.1)).Sublist
        ((Fitz.tiles src_w src_h scale).map (fun t => t.1)) :=
      List.Sublist.map _ (List.filter_sublist _)
    exact List.Pairwise.sublist hs (tiles_index_sorted src_w src_h scale)
  · have hmap : (Pypdf.outPages src_w src_h scale).map (fun t => t.1) =
        (Fitz.tiles src_w src_h scale).map (fun t => t.1) := by
      rw [← outPages_proj src_w src_h scale, List.map_map]
      rfl
    rw [hmap]
    exact tiles_index_sorted src_w src_h scale

/-- Covering lemma for one axis: every coordinate of `[0, X]` lies in the
clipped interval of some strip index below `ceil(X / tw)`. -/
theorem cover_interval {tw X x : ℚ} (htw : 0 < tw) (hX : 0 < X)
    (h0 : 0 ≤ x) (hx : x ≤ X) :
    ∃ c : ℕ, (c : ℤ) < ⌈X / tw⌉ ∧ (c : ℚ) * tw ≤ x ∧ x ≤ min ((c : ℚ) * tw + tw) X := by
  have hn1 : 1 ≤ ⌈X / tw⌉ := Int.ceil_pos.mpr (div_pos hX htw)
  have hk0 : (0 : ℤ) ≤ ⌊x / tw⌋ := Int.floor_nonneg.mpr (div_nonneg h0 htw.le)
  have hfl : ((⌊x / tw⌋ : ℤ) : ℚ) * tw ≤ x := by
    have h1 := mul_le_mul_of_nonneg_right (Int.floor_le (x / tw)) htw.le
    rw [div_mul_cancel₀ x (ne_of_gt htw)] at h1
    exact h1
  by_cases hkn : ⌊x / tw⌋ ≤ ⌈X / tw⌉ - 1
  · refine ⟨⌊x / tw⌋.toNat, ?_, ?_, ?_⟩
    · rw [Int.toNat_of_nonneg hk0]
      omega
    · have h2 : ((⌊x / tw⌋.toNat : ℕ) : ℚ) = ((⌊x / tw⌋ : ℤ) : ℚ) := by
        rw [← Int.cast_natCast, Int.toNat_of_nonneg hk0]
      rw [h2]
      exact hfl
    · refine le_min ?_ hx
      have h2 : ((⌊x / tw⌋.toNat : ℕ) : ℚ) = ((⌊x / tw⌋ : ℤ) : ℚ) := by
        rw [← Int.cast_natCast, Int.toNat_of_nonneg hk0]
      rw [h2]
      have h3 := mul_lt_mul_of_pos_right (Int.lt_floor_add_one (x / tw)) htw
      rw [div_mul_cancel₀ x (ne_of_gt htw)] at h3
      have h4 : (((⌊x / tw⌋ : ℤ) : ℚ) + 1) * tw = ((⌊x / tw⌋ : ℤ) : ℚ) * tw + tw := by
        ring
      linarith
  · push_neg at hkn
    have hnn : (0 : ℤ) ≤ ⌈X / tw⌉ - 1 := by omega
    have hc : (((⌈X / tw⌉ - 1).toNat : ℕ) : ℚ) = ((⌈X / tw⌉ : ℤ) : ℚ) - 1 := by
      rw [← Int.cast_natCast, Int.toNat_of_nonneg hnn]
      push_cast
      ring
    refine ⟨(⌈X / tw⌉ - 1).toNat, ?_, ?_, ?_⟩
    · rw [Int.toNat_of_nonneg hnn]
      omega
    · rw [hc]
      have h1 : ((⌈X / tw⌉ : ℤ) : ℚ) - 1 ≤ ((⌊x / tw⌋ : ℤ) : ℚ) := by
        exact_mod_cast (by omega : ⌈X / tw⌉ - 1 ≤ ⌊x / tw⌋)
      have h5 := mul_le_mul_of_nonneg_right h1 htw.le
      linarith
    · refine le_min ?_ hx
      rw [hc]
      have h1 := mul_le_mul_of_nonneg_right (Int.le_ceil (X / tw)) htw.le
      rw [div_mul_cancel₀ X (ne_of_gt htw)] at h1
      have h4 : (((⌈X / tw⌉ : ℤ) : ℚ) - 1) * tw + tw = ((⌈X / tw⌉ : ℤ) : ℚ) * tw := by
        ring
      linarith

/-- Disjointness lemma for one axis: the open strips of two distinct
indices cannot share a coordinate. -/
theorem interval_disjoint {tw X x : ℚ} (htw : 0 < tw) {c1 c2 : ℕ} (hcc : c1 < c2)
    (h1 : (c1 : ℚ) * tw < x) (h2 : x < min ((c1 : ℚ) * tw + tw) X)
    (h3 : (c2 : ℚ) * tw < x) : False := by
  have ha : x < (c1 : ℚ) * tw + tw := lt_of_lt_of_le h2 (min_le_left _ _)
  have hb : ((c1 : ℚ) + 1) ≤ (c2 : ℚ) := by exact_mod_cast hcc
  nlinarith [mul_le_mul_of_nonneg_right hb htw.le]

/-- C7: for a source page of positive dimensions and a scale in the valid
range, the per-index clip rectangles with row below `rows` and column below
`cols` cover every point of `[0, src_w] x [0, src_h]`, stay inside the
source bounds (the last row and column are clipped rather than
overshooting), and have pairwise disjoint interiors — a partition of the
source rectangle. -/
theorem claim7_partition (src_w src_h scale : ℚ) (hw : 0 < src_w) (hh : 0 < src_h)
    (hlo : 2/5 ≤ scale) (hhi : scale ≤ 1) :
    (∀ x y : ℚ, 0 ≤ x → x ≤ src_w → 0 ≤ y → y ≤ src_h →
      ∃ r c : ℕ, (r : ℤ) < Fitz.rows src_h scale ∧ (c : ℤ) < Fitz.cols src_w scale ∧
        (Fitz.tileRect src_w src_h scale r c).memC x y) ∧
    (∀ r c : ℕ, (r : ℤ) < Fitz.rows src_h scale → (c : ℤ) < Fitz.cols src_w scale →
      0 ≤ (Fitz.tileRect src_w src_h scale r c).left ∧
      (Fitz.tileRect src_w src_h scale r c).right ≤ src_w ∧
      0 ≤ (Fitz.tileRect src_w src_h scale r c).top ∧
      (Fitz.tileRect src_w src_h scale r c).bottom ≤ src_h) ∧
    (∀ r1 c1 r2 c2 : ℕ, (r1, c1) ≠ (r2, c2) → ∀ x y : ℚ,
      (Fitz.tileRect src_w src_h scale r1 c1).memO x y →
      ¬ (Fitz.tileRect src_w src_h scale r2 c2).memO x y) := by
  have hs : 0 < scale := lt_of_lt_of_le (by norm_num) hlo
  have htw : 0 < Fitz.tile_w scale := by
    unfold Fitz.tile_w A4_W
    positivity
  have hth : 0 < Fitz.tile_h scale := by
    unfold Fitz.tile_h A4_H
    positivity
  refine ⟨?_, ?_, ?_⟩
  · intro x y hx0 hxw hy0 hyh
    obtain ⟨c, hcn, hcl, hcr⟩ := cover_interval htw hw hx0 hxw
    obtain ⟨r, hrn, hrt, hrb⟩ := cover_interval hth hh hy0 hyh
    exact ⟨r, c, hrn, hcn, hcl, hcr, hrt, hrb⟩
  · intro r c hr hc
    refine ⟨?_, ?_, ?_, ?_⟩
    · exact mul_nonneg (Nat.cast_nonneg c) htw.le
    · exact min_le_right _ _
    · exact mul_nonneg (Nat.cast_nonneg r) hth.le
    · exact min_le_right _ _
  · intro r1 c1 r2 c2 hne x y hm1 hm2
    obtain ⟨hl1, hr1, ht1, hb1⟩ := hm1
    obtain ⟨hl2, hr2, ht2, hb2⟩ := hm2
    rcases Nat.lt_trichotomy r1 r2 with h | h | h
    · exact interval_disjoint hth h ht1 hb1 ht2
    · subst h
      rcases Nat.lt_trichotomy c1 c2 with h2c | h2c | h2c
      · exact interval_disjoint htw h2c hl1 hr1 hl2
      · exact hne (by rw [h2c])
      · exact interval_disjoint htw h2c hl2 hr2 hl1
    · exact interval_disjoint hth h ht2 hb2 ht1

/-- Witness for C7: on the spec's 1190x1684 source at scale 0.80 the point
(700, 900) lies in some tile of the 2x2 grid. -/
theorem claim7_partition_witness :
    ∃ r c : ℕ, (r : ℤ) < Fitz.rows 1684 (4/5) ∧ (c : ℤ) < Fitz.cols 1190 (4/5) ∧
      (Fitz.tileRect 1190 1684 (4/5) r c).memC 700 900 :=
  (claim7_partition 1190 1684 (4/5) (by norm_num) (by norm_num) (by norm_num)
    (by norm_num)).1 700 900 (by norm_num) (by norm_num) (by norm_num) (by norm_num)

end Slicer
